import Mathlib

/-!
# Farvahar launcher (`run.go`): configuration writer and process runner

A shallow embedding of `run.go` and a verification of its specification.

* Go values handed to `encoding/json` are reflected into `Value`, which keeps
  the struct tags (`json:"name"` and the `omitempty` option) next to every
  field; `json.Marshal` turns a `Value` into a `JSON` tree following the rules
  of `encoding/json`, and `json.MarshalIndent` renders the tree as text.
* Everything the program asks of the operating system (`os.Getwd`, `os.Stat`,
  `os.WriteFile`, `filepath.Join`, `(*exec.Cmd).Run`) is answered by an `Env`;
  a theorem quantified over every `Env` holds in every run.  Each call is
  recorded, with its arguments and its answer, as an `Event` of the run's
  trace.
* `log.Fatalf` ends the process with exit status 1.
-/

namespace Farvahar

/-! ## Go error values -/

/-- A Go `error` value.  `base` is an error produced by the runtime or the
operating system (for instance `*fs.PathError`, `*exec.ExitError`), with the
text of its `Error()` method and whether `os.IsNotExist` holds of it;
`wrapError` is the `*fmt.wrapError` built by `fmt.Errorf` with a `%w` verb. -/
inductive GoError where
  | base (msg : String) (notExist : Bool)
  | wrapError (msg : String) (err : GoError)
deriving DecidableEq

/-- The `Error()` method. -/
def GoError.Error : GoError → String
  | .base msg _ => msg
  | .wrapError msg _ => msg

/-- Go `errors.Unwrap`: the wrapped error, if the error has an `Unwrap` method. -/
def errors.Unwrap : GoError → Option GoError
  | .base _ _ => none
  | .wrapError _ err => some err

/-- Go `os.IsNotExist`; the argument is `none` for a nil error.  It predates
`errors.Is` and does not look through `fmt` wrappers. -/
def os.IsNotExist : Option GoError → Bool
  | some (.base _ notExist) => notExist
  | _ => false

/-! ## `fmt` -/

/-- An operand of a formatting call. -/
inductive Arg where
  | str (s : String)
  | err (e : GoError)

/-- Text of an operand under the verbs `%v`, `%s` and `%w`. -/
def Arg.text : Arg → String
  | .str s => s
  | .err e => e.Error

/-- Formatting loop of `fmt.Sprintf` for the verbs `%v`, `%s`, `%w` and `%%`
(the verbs the program uses); a verb without operand prints Go's
`%!v(MISSING)` marker.  Go's markers for a lone trailing percent sign and for
operands left over are not modelled: no call of the program produces them. -/
def fmt.sprintfAux : List Char → List Arg → List Char
  | [], _ => []
  | [c], _ => [c]
  | c :: d :: rest, args =>
    if c = Char.ofNat 37 then
      if d = Char.ofNat 37 then c :: fmt.sprintfAux rest args
      else
        match args with
        | [] => [c, Char.ofNat 33, d] ++ "(MISSING)".toList ++ fmt.sprintfAux rest []
        | a :: more => a.text.toList ++ fmt.sprintfAux rest more
    else c :: fmt.sprintfAux (d :: rest) args

/-- Go `fmt.Sprintf`. -/
def fmt.Sprintf (format : String) (args : List Arg) : String :=
  String.mk (fmt.sprintfAux format.toList args)

/-- Go `fmt.Errorf` with one `%w` operand: the message is the formatted text
and `Unwrap` gives back the operand. -/
def fmt.Errorf (format : String) (err : GoError) : GoError :=
  .wrapError (fmt.Sprintf format [.err err]) err

/-! ## Values handed to `encoding/json` -/

/-- A struct field as `encoding/json` sees it: the key of its `json` tag,
whether the tag carries `omitempty`, and the field's value. -/
structure Field (α : Type) where
  name : String
  omitEmpty : Bool
  value : α

/-- A Go value, by `reflect.Kind`.  A nil slice, a nil map and a nil interface
are distinct from their empty or filled forms. -/
inductive Value where
  | bool (b : Bool)
  | int (n : Int)
  | string (s : String)
  | nilSlice
  | slice (elems : List Value)
  | nilMap
  | map (entries : List (String × Value))
  | struct (fields : List (Field Value))
  | nilIface
  | iface (dyn : Value)
  | unsupported (typeName : String)

/-- A JSON document; an object keeps its members in emission order. -/
inductive JSON where
  | null
  | bool (b : Bool)
  | number (n : Int)
  | string (s : String)
  | array (elems : List JSON)
  | object (members : List (String × JSON))

/-- Keys of an object, in emission order (empty for any other document). -/
def JSON.keys : JSON → List String
  | .object members => members.map Prod.fst
  | _ => []

/-- Member of an object under a key. -/
def JSON.get (key : String) : JSON → Option JSON
  | .object members => members.lookup key
  | _ => none

/-- The `isEmptyValue` of `encoding/json`, which decides `omitempty`: length
zero for slices, maps and strings; the zero value for booleans, integers and
interfaces; never for a struct. -/
def json.isEmptyValue : Value → Bool
  | .bool b => !b
  | .int n => n == 0
  | .string s => s.length == 0
  | .nilSlice => true
  | .slice elems => elems.length == 0
  | .nilMap => true
  | .map entries => entries.length == 0
  | .nilIface => true
  | .iface _ => false
  | .struct _ => false
  | .unsupported _ => false

/-- Insert a member into a list sorted by key. -/
def json.insertByKey (m : String × JSON) : List (String × JSON) → List (String × JSON)
  | [] => [m]
  | x :: xs => if m.1 ≤ x.1 then m :: x :: xs else x :: json.insertByKey m xs

/-- Members sorted by key: `encoding/json` emits a map's entries in key order. -/
def json.sortByKey : List (String × JSON) → List (String × JSON)
  | [] => []
  | m :: ms => json.insertByKey m (json.sortByKey ms)

mutual
/-- The encoder of `encoding/json` (`json.Marshal`, before rendering): struct
fields in declaration order under their tag names, skipping an `omitempty`
field whose value is empty; map entries sorted by key; nil slices and maps as
`null`; an interface as its dynamic value. -/
def json.encode : Value → Except GoError JSON
  | .bool b => .ok (.bool b)
  | .int n => .ok (.number n)
  | .string s => .ok (.string s)
  | .nilSlice => .ok .null
  | .slice elems =>
    match json.encodeElems elems with
    | .error e => .error e
    | .ok js => .ok (.array js)
  | .nilMap => .ok .null
  | .map entries =>
    match json.encodeEntries entries with
    | .error e => .error e
    | .ok ms => .ok (.object (json.sortByKey ms))
  | .struct fields =>
    match json.encodeFields fields with
    | .error e => .error e
    | .ok ms => .ok (.object ms)
  | .nilIface => .ok .null
  | .iface dyn => json.encode dyn
  | .unsupported typeName => .error (.base ("json: unsupported type: " ++ typeName) false)
/-- Elements of a slice. -/
def json.encodeElems : List Value → Except GoError (List JSON)
  | [] => .ok []
  | v :: vs =>
    match json.encode v with
    | .error e => .error e
    | .ok j =>
      match json.encodeElems vs with
      | .error e => .error e
      | .ok js => .ok (j :: js)
/-- Entries of a map. -/
def json.encodeEntries : List (String × Value) → Except GoError (List (String × JSON))
  | [] => .ok []
  | (k, v) :: es =>
    match json.encode v with
    | .error e => .error e
    | .ok j =>
      match json.encodeEntries es with
      | .error e => .error e
      | .ok ms => .ok ((k, j) :: ms)
/-- Fields of a struct. -/
def json.encodeFields : List (Field Value) → Except GoError (List (String × JSON))
  | [] => .ok []
  | ⟨name, omitEmpty, v⟩ :: fs =>
    if omitEmpty && json.isEmptyValue v then json.encodeFields fs
    else
      match json.encode v with
      | .error e => .error e
      | .ok j =>
        match json.encodeFields fs with
        | .error e => .error e
        | .ok ms => .ok ((name, j) :: ms)
end

/-! ## Rendering -/

/-- A lowercase hexadecimal digit. -/
def json.hexDigit (n : Nat) : Char :=
  if n < 10 then Char.ofNat (48 + n) else Char.ofNat (87 + n)

/-- Four hexadecimal digits of a code point below `0x10000`. -/
def json.hex4 (n : Nat) : List Char :=
  [json.hexDigit (n / 4096 % 16), json.hexDigit (n / 256 % 16),
   json.hexDigit (n / 16 % 16), json.hexDigit (n % 16)]

/-- Escape of one character inside a JSON string, as `json.Marshal` does it
(HTML escaping on): quote and backslash get a backslash; backspace, form feed,
newline, carriage return and tab their letter; other control characters,
`<`, `>`, `&`, U+2028 and U+2029 the `\u` form. -/
def json.escapeChar (c : Char) : List Char :=
  let bs := Char.ofNat 92
  let n := c.toNat
  if n = 34 ∨ n = 92 then [bs, c]
  else if n = 8 then [bs, Char.ofNat 98]
  else if n = 12 then [bs, Char.ofNat 102]
  else if n = 10 then [bs, Char.ofNat 110]
  else if n = 13 then [bs, Char.ofNat 114]
  else if n = 9 then [bs, Char.ofNat 116]
  else if n < 32 ∨ n = 60 ∨ n = 62 ∨ n = 38 ∨ n = 8232 ∨ n = 8233 then
    bs :: Char.ofNat 117 :: json.hex4 n
  else [c]

/-- A quoted JSON string. -/
def json.quote (s : String) : String :=
  String.mk (Char.ofNat 34 :: (s.toList.flatMap json.escapeChar ++ [Char.ofNat 34]))

/-- A decimal integer. -/
def json.formatInt : Int → String
  | .ofNat n => Nat.repr n
  | .negSucc n => "-" ++ Nat.repr (n + 1)

/-- Line break of `json.Indent`: a newline, the line header, and one copy of
the indent per nesting level. -/
def json.newline (pfx indent : String) : Nat → String
  | 0 => "\n" ++ pfx
  | depth + 1 => json.newline pfx indent depth ++ indent

mutual
/-- Text of a document at a nesting depth, as `json.Indent` lays it out: every
element and member on its own line, `": "` after a key, and an empty array or
object closed at once. -/
def json.render (pfx indent : String) (depth : Nat) : JSON → String
  | .null => "null"
  | .bool b => if b then "true" else "false"
  | .number n => json.formatInt n
  | .string s => json.quote s
  | .array [] => "[]"
  | .array (x :: xs) =>
    "[" ++ json.newline pfx indent (depth + 1)
      ++ json.renderElems pfx indent (depth + 1) (x :: xs)
      ++ json.newline pfx indent depth ++ "]"
  | .object [] => "\x7b\x7d"
  | .object (m :: ms) =>
    "\x7b" ++ json.newline pfx indent (depth + 1)
      ++ json.renderMembers pfx indent (depth + 1) (m :: ms)
      ++ json.newline pfx indent depth ++ "\x7d"
/-- Elements of an array, separated by a comma and a line break. -/
def json.renderElems (pfx indent : String) (depth : Nat) : List JSON → String
  | [] => ""
  | [x] => json.render pfx indent depth x
  | x :: y :: rest =>
    json.render pfx indent depth x ++ "," ++ json.newline pfx indent depth
      ++ json.renderElems pfx indent depth (y :: rest)
/-- Members of an object, separated by a comma and a line break. -/
def json.renderMembers (pfx indent : String) (depth : Nat) :
    List (String × JSON) → String
  | [] => ""
  | [(k, v)] => json.quote k ++ ": " ++ json.render pfx indent depth v
  | (k, v) :: m :: rest =>
    json.quote k ++ ": " ++ json.render pfx indent depth v ++ ","
      ++ json.newline pfx indent depth
      ++ json.renderMembers pfx indent depth (m :: rest)
end

/-- Go `json.MarshalIndent`: encode, then lay out with the given line header
and indent. -/
def json.MarshalIndent (v : Value) (pfx indent : String) : Except GoError String :=
  match json.encode v with
  | .error e => .error e
  | .ok doc => .ok (json.render pfx indent 0 doc)

/-! ## The configuration types of `run.go`

A Lean structure default is the Go zero value of the field, so a structure
literal that leaves a field out means what the Go composite literal means.
`none` stands for a nil slice or nil map. -/

/-- Go `LogConfig`. -/
structure LogConfig where
  Loglevel : String := ""

/-- Go `InboundConfig`; `Settings` is a `map[string]interface{}`. -/
structure InboundConfig where
  Port : Int := 0
  Listen : String := ""
  Protocol : String := ""
  Settings : Option (List (String × Value)) := none
  Tag : String := ""

/-- Go `OutboundConfig`. -/
structure OutboundConfig where
  Protocol : String := ""
  Settings : Option (List (String × Value)) := none
  Tag : String := ""

/-- Go `DNSConfig`; `Servers` is a `[]interface{}`. -/
structure DNSConfig where
  Servers : Option (List Value) := none

/-- Go `RoutingConfig`. -/
structure RoutingConfig where
  DomainStrategy : String := ""
  Rules : Option (List Value) := none

/-- Go `XrayConfig`. -/
structure XrayConfig where
  Log : LogConfig := {}
  Inbounds : Option (List InboundConfig) := none
  Outbounds : Option (List OutboundConfig) := none
  DNS : DNSConfig := {}
  Routing : RoutingConfig := {}

/-- Reflection of a `map[string]interface{}`. -/
def reflectMap : Option (List (String × Value)) → Value
  | none => .nilMap
  | some entries => .map (entries.map fun e => (e.1, Value.iface e.2))

/-- Reflection of a `[]interface{}`. -/
def reflectIfaces : Option (List Value) → Value
  | none => .nilSlice
  | some elems => .slice (elems.map Value.iface)

/-- Reflection of a slice of structs. -/
def reflectSlice {α : Type} (f : α → Value) : Option (List α) → Value
  | none => .nilSlice
  | some elems => .slice (elems.map f)

/-- Fields and tags of `LogConfig`. -/
def LogConfig.toValue (c : LogConfig) : Value :=
  .struct [⟨"loglevel", false, .string c.Loglevel⟩]

/-- Fields and tags of `InboundConfig`. -/
def InboundConfig.toValue (c : InboundConfig) : Value :=
  .struct [
    ⟨"port", false, .int c.Port⟩,
    ⟨"listen", true, .string c.Listen⟩,
    ⟨"protocol", false, .string c.Protocol⟩,
    ⟨"settings", false, reflectMap c.Settings⟩,
    ⟨"tag", true, .string c.Tag⟩]

/-- Fields and tags of `OutboundConfig`. -/
def OutboundConfig.toValue (c : OutboundConfig) : Value :=
  .struct [
    ⟨"protocol", false, .string c.Protocol⟩,
    ⟨"settings", false, reflectMap c.Settings⟩,
    ⟨"tag", true, .string c.Tag⟩]

/-- Fields and tags of `DNSConfig`. -/
def DNSConfig.toValue (c : DNSConfig) : Value :=
  .struct [⟨"servers", false, reflectIfaces c.Servers⟩]

/-- Fields and tags of `RoutingConfig`. -/
def RoutingConfig.toValue (c : RoutingConfig) : Value :=
  .struct [
    ⟨"domainStrategy", false, .string c.DomainStrategy⟩,
    ⟨"rules", false, reflectIfaces c.Rules⟩]

/-- Fields and tags of `XrayConfig`: `dns` and `routing` carry `omitempty`. -/
def XrayConfig.toValue (c : XrayConfig) : Value :=
  .struct [
    ⟨"log", false, c.Log.toValue⟩,
    ⟨"inbounds", false, reflectSlice InboundConfig.toValue c.Inbounds⟩,
    ⟨"outbounds", false, reflectSlice OutboundConfig.toValue c.Outbounds⟩,
    ⟨"dns", true, c.DNS.toValue⟩,
    ⟨"routing", true, c.Routing.toValue⟩]

/-! ## The operating system -/

/-- What `os.Stat` reports of an existing path. -/
structure FileInfo where
  isDir : Bool
  mode : Nat
deriving DecidableEq

/-- The standard streams `os.Stdout` and `os.Stderr` of the launcher. -/
inductive Stream where
  | Stdout
  | Stderr
deriving DecidableEq

/-- Go `exec.Cmd`: the program, its argument vector (the program first) and
the streams given to the child; `none` is a nil stream. -/
structure Cmd where
  Path : String
  Args : List String
  Stdout : Option Stream := none
  Stderr : Option Stream := none
deriving DecidableEq

/-- How an attempt to run a child process ends. -/
inductive ChildResult where
  | startFailed (err : GoError)
  | exited (status : Nat)
  | abnormal (err : GoError)
deriving DecidableEq

/-- The answers of the operating system during one run. -/
structure Env where
  Getwd : Except GoError String
  Join : List String → String
  Stat : String → Except GoError FileInfo
  WriteFile : String → String → Nat → Option GoError
  Child : Cmd → ChildResult

/-- A call made by the program, with its answer. -/
inductive Event where
  | getwd (res : Except GoError String)
  | stat (path : String) (res : Except GoError FileInfo)
  | writeFile (path data : String) (perm : Nat) (res : Option GoError)
  | run (cmd : Cmd) (res : Option GoError)
  | fatal (msg : String)

/-- Whether the event is a file write. -/
def Event.isWrite : Event → Bool
  | .writeFile _ _ _ _ => true
  | _ => false

/-- Whether the event is the launch of a child process. -/
def Event.isLaunch : Event → Bool
  | .run _ _ => true
  | _ => false

/-- Permission mode passed by a file write. -/
def Event.writePerm : Event → Option Nat
  | .writeFile _ _ perm _ => some perm
  | _ => none

/-- Bytes passed by a file write. -/
def Event.writeData : Event → Option String
  | .writeFile _ data _ _ => some data
  | _ => none

/-- Outcome of a computation: the calls it made and either its value or the
exit status with which it ended the process. -/
structure Outcome (α : Type) where
  trace : List Event
  result : Except Nat α

/-- A computation of the program under an environment. -/
def Proc (α : Type) : Type := Env → Outcome α

/-- Return a value without any call. -/
def Proc.pure {α : Type} (a : α) : Proc α := fun _ => ⟨[], .ok a⟩

/-- Sequence two computations; nothing runs after the process has exited. -/
def Proc.bind {α β : Type} (x : Proc α) (f : α → Proc β) : Proc β := fun env =>
  match x env with
  | ⟨t, .error code⟩ => ⟨t, .error code⟩
  | ⟨t, .ok a⟩ =>
    match f a env with
    | ⟨u, r⟩ => ⟨t ++ u, r⟩

instance : Monad Proc where
  pure := Proc.pure
  bind := Proc.bind

/-- Go `os.Getwd`. -/
def os.Getwd : Proc (Except GoError String) := fun env =>
  ⟨[.getwd env.Getwd], .ok env.Getwd⟩

/-- Go `filepath.Join`. -/
def filepath.Join (elem : List String) : Proc String := fun env =>
  ⟨[], .ok (env.Join elem)⟩

/-- Go `os.Stat`. -/
def os.Stat (name : String) : Proc (Except GoError FileInfo) := fun env =>
  ⟨[.stat name (env.Stat name)], .ok (env.Stat name)⟩

/-- Go `os.WriteFile`; the value is the returned error. -/
def os.WriteFile (name data : String) (perm : Nat) : Proc (Option GoError) := fun env =>
  ⟨[.writeFile name data perm (env.WriteFile name data perm)],
   .ok (env.WriteFile name data perm)⟩

/-- Go `os.Exit`. -/
def os.Exit {α : Type} (code : Nat) : Proc α := fun _ => ⟨[], .error code⟩

/-- Go `log.Fatalf`: print the formatted message (the event keeps the message,
not the date and time the logger puts before it), then `os.Exit(1)`. -/
def log.Fatalf {α : Type} (format : String) (args : List Arg) : Proc α := fun _ =>
  ⟨[.fatal (fmt.Sprintf format args)], .error 1⟩

/-- The error part of a `(value, error)` pair. -/
def errOf {α : Type} : Except GoError α → Option GoError
  | .ok _ => none
  | .error e => some e

/-- Go `exec.Command` for a name that holds a path separator, as a joined
path does: the name is the program, without a search of `PATH`, and the
argument vector starts with it. -/
def exec.Command (name : String) (arg : List String) : Cmd :=
  { Path := name, Args := name :: arg }

/-- The error `(*exec.Cmd).Run` returns for an outcome of the child: nil only
for a child that started and exited with status 0. -/
def ChildResult.err : ChildResult → Option GoError
  | .startFailed e => some e
  | .exited 0 => none
  | .exited (n + 1) => some (.base ("exit status " ++ Nat.repr (n + 1)) false)
  | .abnormal e => some e

/-- Go `(*exec.Cmd).Run`: start the child and wait for it. -/
def Cmd.Run (cmd : Cmd) : Proc (Option GoError) := fun env =>
  ⟨[.run cmd (env.Child cmd).err], .ok (env.Child cmd).err⟩

/-! ## `run.go` -/

/-- The local `config` of `generateXrayConfig`. -/
def generateXrayConfig.config : XrayConfig :=
  { Log := { Loglevel := "warning" },
    Inbounds := some [
      { Port := 1080,
        Listen := "127.0.0.1",
        Protocol := "socks",
        Settings := some [("udp", .bool true)],
        Tag := "socks-in" }],
    Outbounds := some [
      { Protocol := "freedom",
        Settings := some [] }] }

/-- Go `generateXrayConfig`; the value is the returned error. -/
def generateXrayConfig (path : String) : Proc (Option GoError) :=
  match json.MarshalIndent generateXrayConfig.config.toValue "" "  " with
  | .error err => pure (some err)
  | .ok data => os.WriteFile path data 0o644

/-- Go `runXray`; the value is the returned error. -/
def runXray (xrayPath configPath : String) : Proc (Option GoError) := do
  let cmd := exec.Command xrayPath ["-config", configPath]
  let cmd := { cmd with Stdout := some Stream.Stdout }
  let cmd := { cmd with Stderr := some Stream.Stderr }
  let err ← cmd.Run
  match err with
  | some err => pure (some (fmt.Errorf "%w" err))
  | none => pure none

/-- Go `main`. -/
def main : Proc Unit := do
  let baseDir ←
    match (← os.Getwd) with
    | .error err => log.Fatalf "%v" [.err err]
    | .ok baseDir => pure baseDir
  let xrayBinary ← filepath.Join [baseDir, "assets", "xray.exe"]
  let configPath ← filepath.Join [baseDir, "config.json"]
  let st ← os.Stat xrayBinary
  if os.IsNotExist (errOf st) then
    log.Fatalf "%s" [.str xrayBinary]
  match (← generateXrayConfig configPath) with
  | some err => log.Fatalf "%v" [.err err]
  | none => pure ()
  match (← runXray xrayBinary configPath) with
  | some err => log.Fatalf "Xray error: %v" [.err err]
  | none => pure ()

/-- Exit status of the process: the status passed to `os.Exit`, or 0 when
`main` returns. -/
def exitStatus (o : Outcome Unit) : Nat :=
  match o.result with
  | .ok _ => 0
  | .error code => code

/-! ## Concrete values used in the statements -/

/-- The JSON tree `generateXrayConfig` serialises. -/
def configDoc : JSON :=
  .object [
    ("log", .object [("loglevel", .string "warning")]),
    ("inbounds", .array [.object [
      ("port", .number 1080),
      ("listen", .string "127.0.0.1"),
      ("protocol", .string "socks"),
      ("settings", .object [("udp", .bool true)]),
      ("tag", .string "socks-in")]]),
    ("outbounds", .array [.object [
      ("protocol", .string "freedom"),
      ("settings", .object [])]]),
    ("dns", .object [("servers", .null)]),
    ("routing", .object [("domainStrategy", .string ""), ("rules", .null)])]

/-- The bytes `generateXrayConfig` writes, line by line. -/
def configText : String :=
  String.intercalate "\n" [
    "\x7b",
    "  \"log\": \x7b",
    "    \"loglevel\": \"warning\"",
    "  \x7d,",
    "  \"inbounds\": [",
    "    \x7b",
    "      \"port\": 1080,",
    "      \"listen\": \"127.0.0.1\",",
    "      \"protocol\": \"socks\",",
    "      \"settings\": \x7b",
    "        \"udp\": true",
    "      \x7d,",
    "      \"tag\": \"socks-in\"",
    "    \x7d",
    "  ],",
    "  \"outbounds\": [",
    "    \x7b",
    "      \"protocol\": \"freedom\",",
    "      \"settings\": \x7b\x7d",
    "    \x7d",
    "  ],",
    "  \"dns\": \x7b",
    "    \"servers\": null",
    "  \x7d,",
    "  \"routing\": \x7b",
    "    \"domainStrategy\": \"\",",
    "    \"rules\": null",
    "  \x7d",
    "\x7d"]

/-- The command `runXray` builds from its two arguments. -/
def launchCmd (xrayPath configPath : String) : Cmd :=
  { Path := xrayPath, Args := [xrayPath, "-config", configPath],
    Stdout := some Stream.Stdout, Stderr := some Stream.Stderr }

/-- The local `xrayBinary` of `main` in working directory `baseDir`. -/
def xrayBinaryOf (env : Env) (baseDir : String) : String :=
  env.Join [baseDir, "assets", "xray.exe"]

/-- The local `configPath` of `main` in working directory `baseDir`. -/
def configPathOf (env : Env) (baseDir : String) : String :=
  env.Join [baseDir, "config.json"]

/-- Contents of the files, by path. -/
def Files : Type := String → Option String

/-- No file at all. -/
def Files.empty : Files := fun _ => none

/-- Effect of a call on the files: an `os.WriteFile` that returned nil created
or truncated the file and left it holding the bytes passed. -/
def Files.step (fs : Files) : Event → Files
  | .writeFile path data _ none => fun p => if p = path then some data else fs p
  | _ => fs

/-- Files after a trace. -/
def Files.after (fs : Files) (t : List Event) : Files :=
  t.foldl Files.step fs

/-- A run in `/srv/farvahar` on a system that joins paths with a slash: the
binary is a regular file, the write succeeds and the child exits with 0. -/
def Env.healthy : Env :=
  { Getwd := .ok "/srv/farvahar",
    Join := fun elem => String.intercalate "/" elem,
    Stat := fun _ => .ok { isDir := false, mode := 0o755 },
    WriteFile := fun _ _ _ => none,
    Child := fun _ => .exited 0 }

/-- As `Env.healthy`, but the binary is absent. -/
def Env.noBinary : Env :=
  { Env.healthy with
    Stat := fun _ => .error (.base "CreateFile assets/xray.exe: file not found" true) }

/-- As `Env.healthy`, but the child exits with status 2. -/
def Env.childFails : Env :=
  { Env.healthy with Child := fun _ => .exited 2 }

/-- As `Env.healthy`, but the stat is refused (an error other than not-exist)
and the working directory is not writable. -/
def Env.denied : Env :=
  { Env.healthy with
    Stat := fun _ => .error (.base "stat assets/xray.exe: permission denied" false),
    WriteFile := fun _ _ _ => some (.base "open config.json: permission denied" false) }

/-- As `Env.healthy`, but `assets/xray.exe` is a directory, which cannot be
started. -/
def Env.binaryIsDir : Env :=
  { Env.healthy with
    Stat := fun _ => .ok { isDir := true, mode := 0o755 },
    Child := fun _ => .startFailed (.base "fork/exec assets/xray.exe: permission denied" false) }

/-! ## Lemmas on the embedding -/

theorem encode_config : json.encode generateXrayConfig.config.toValue = .ok configDoc := by
  rfl

set_option maxRecDepth 100000 in
theorem render_configDoc : json.render "" "  " 0 configDoc = configText := by
  decide

theorem marshalIndent_config :
    json.MarshalIndent generateXrayConfig.config.toValue "" "  " = .ok configText := by
  unfold json.MarshalIndent
  rw [encode_config]
  simp only [render_configDoc]

theorem generateXrayConfig_eq (env : Env) (path : String) :
    generateXrayConfig path env =
      ⟨[.writeFile path configText 0o644 (env.WriteFile path configText 0o644)],
       .ok (env.WriteFile path configText 0o644)⟩ := by
  unfold generateXrayConfig
  rw [marshalIndent_config]
  rfl

theorem sprintf_v (a : Arg) : fmt.Sprintf "%v" [a] = a.text := by
  simp [fmt.Sprintf, fmt.sprintfAux]

theorem sprintf_s (a : Arg) : fmt.Sprintf "%s" [a] = a.text := by
  simp [fmt.Sprintf, fmt.sprintfAux]

theorem sprintf_w (a : Arg) : fmt.Sprintf "%w" [a] = a.text := by
  simp [fmt.Sprintf, fmt.sprintfAux]

theorem sprintf_xray (a : Arg) : fmt.Sprintf "Xray error: %v" [a] = "Xray error: " ++ a.text := by
  apply String.ext
  simp [fmt.Sprintf, fmt.sprintfAux]

theorem runXray_eq (env : Env) (xrayPath configPath : String) :
    runXray xrayPath configPath env =
      ⟨[.run (launchCmd xrayPath configPath) (env.Child (launchCmd xrayPath configPath)).err],
       .ok ((env.Child (launchCmd xrayPath configPath)).err.map (fmt.Errorf "%w"))⟩ := by
  have h : ∀ r : Option GoError,
      (match r with
        | some err => (Proc.pure (some (fmt.Errorf "%w" err)) : Proc (Option GoError))
        | none => Proc.pure none) env = ⟨[], .ok (r.map (fmt.Errorf "%w"))⟩ := by
    intro r; cases r <;> rfl
  simp only [runXray, bind, Proc.bind, Cmd.Run, pure, exec.Command, h, launchCmd, List.append_nil]

theorem main_getwd_error (env : Env) (e : GoError) (hwd : env.Getwd = .error e) :
    main env = ⟨[.getwd (.error e), .fatal e.Error], .error 1⟩ := by
  simp [main, bind, Proc.bind, os.Getwd, hwd, log.Fatalf, sprintf_v, Arg.text]

theorem main_missing (env : Env) (d : String) (hwd : env.Getwd = .ok d)
    (hst : os.IsNotExist (errOf (env.Stat (xrayBinaryOf env d))) = true) :
    main env =
      ⟨[.getwd (.ok d),
        .stat (xrayBinaryOf env d) (env.Stat (xrayBinaryOf env d)),
        .fatal (xrayBinaryOf env d)], .error 1⟩ := by
  simp only [xrayBinaryOf] at hst ⊢
  simp [main, bind, Proc.bind, os.Getwd, hwd, log.Fatalf, sprintf_s, Arg.text, pure, Proc.pure,
    filepath.Join, os.Stat, hst]

theorem main_write_error (env : Env) (d : String) (e : GoError) (hwd : env.Getwd = .ok d)
    (hst : os.IsNotExist (errOf (env.Stat (xrayBinaryOf env d))) = false)
    (hw : env.WriteFile (configPathOf env d) configText 0o644 = some e) :
    main env =
      ⟨[.getwd (.ok d),
        .stat (xrayBinaryOf env d) (env.Stat (xrayBinaryOf env d)),
        .writeFile (configPathOf env d) configText 0o644 (some e),
        .fatal e.Error], .error 1⟩ := by
  simp only [xrayBinaryOf, configPathOf] at hst hw ⊢
  simp [main, bind, Proc.bind, os.Getwd, hwd, log.Fatalf, sprintf_v, Arg.text, pure, Proc.pure,
    filepath.Join, os.Stat, hst, generateXrayConfig_eq, hw]

theorem main_child_error (env : Env) (d : String) (e : GoError) (hwd : env.Getwd = .ok d)
    (hst : os.IsNotExist (errOf (env.Stat (xrayBinaryOf env d))) = false)
    (hw : env.WriteFile (configPathOf env d) configText 0o644 = none)
    (hc : (env.Child (launchCmd (xrayBinaryOf env d) (configPathOf env d))).err = some e) :
    main env =
      ⟨[.getwd (.ok d),
        .stat (xrayBinaryOf env d) (env.Stat (xrayBinaryOf env d)),
        .writeFile (configPathOf env d) configText 0o644 none,
        .run (launchCmd (xrayBinaryOf env d) (configPathOf env d)) (some e),
        .fatal ("Xray error: " ++ e.Error)], .error 1⟩ := by
  simp only [xrayBinaryOf, configPathOf] at hst hw hc ⊢
  simp [main, bind, Proc.bind, os.Getwd, hwd, log.Fatalf, sprintf_xray, sprintf_w, Arg.text, pure,
    Proc.pure, filepath.Join, os.Stat, hst, generateXrayConfig_eq, hw, runXray_eq, hc, fmt.Errorf,
    GoError.Error]

theorem main_clean (env : Env) (d : String) (hwd : env.Getwd = .ok d)
    (hst : os.IsNotExist (errOf (env.Stat (xrayBinaryOf env d))) = false)
    (hw : env.WriteFile (configPathOf env d) configText 0o644 = none)
    (hc : (env.Child (launchCmd (xrayBinaryOf env d) (configPathOf env d))).err = none) :
    main env =
      ⟨[.getwd (.ok d),
        .stat (xrayBinaryOf env d) (env.Stat (xrayBinaryOf env d)),
        .writeFile (configPathOf env d) configText 0o644 none,
        .run (launchCmd (xrayBinaryOf env d) (configPathOf env d)) none], .ok ()⟩ := by
  simp only [xrayBinaryOf, configPathOf] at hst hw hc ⊢
  simp [main, bind, Proc.bind, os.Getwd, hwd, log.Fatalf, pure,
    Proc.pure, filepath.Join, os.Stat, hst, generateXrayConfig_eq, hw, runXray_eq, hc]

theorem childErr_none_iff (c : ChildResult) : c.err = none ↔ c = .exited 0 := by
  cases c with
  | startFailed e => simp [ChildResult.err]
  | exited n => cases n <;> simp [ChildResult.err]
  | abnormal e => simp [ChildResult.err]

theorem launch_split (a b c r ev : Event) (tail pre post : List Event)
    (h : a :: b :: c :: r :: tail = pre ++ ev :: post) (hl : ev.isLaunch = true)
    (ha : a.isLaunch = false) (hb : b.isLaunch = false) (hc : c.isLaunch = false)
    (ht : ∀ x ∈ tail, x.isLaunch = false) :
    pre = [a, b, c] ∧ ev = r ∧ post = tail := by
  rcases pre with _ | ⟨p1, _ | ⟨p2, _ | ⟨p3, _ | ⟨p4, pre⟩⟩⟩⟩
  · simp at h; rw [← h.1] at hl; simp [ha] at hl
  · simp at h; rw [← h.2.1] at hl; simp [hb] at hl
  · simp at h; rw [← h.2.2.1] at hl; simp [hc] at hl
  · simp at h
    obtain ⟨h1, h2, h3, h4, h5⟩ := h
    subst h1 h2 h3 h4 h5
    simp
  · simp at h
    have hm : ev ∈ tail := by rw [h.2.2.2.2]; simp
    rw [ht ev hm] at hl
    simp at hl

/-! ## The claims -/

/-- C1: for every output path (and environment), the bytes `generateXrayConfig`
writes are the rendering of the document its configuration encodes to, and in
that document `log` is `{"loglevel": "warning"}`, `inbounds` has exactly one
entry (port 1080, listen 127.0.0.1, protocol socks, settings `{"udp": true}`,
tag socks-in) and `outbounds` has exactly one entry (protocol freedom, empty
settings, and no `tag` key). -/
theorem generateXrayConfig_document (env : Env) (path : String) :
    ∃ doc res,
      json.encode generateXrayConfig.config.toValue = .ok doc ∧
      (generateXrayConfig path env).trace
        = [.writeFile path (json.render "" "  " 0 doc) 0o644 res] ∧
      doc.get "log" = some (.object [("loglevel", .string "warning")]) ∧
      doc.get "inbounds" = some (.array [.object [
        ("port", .number 1080),
        ("listen", .string "127.0.0.1"),
        ("protocol", .string "socks"),
        ("settings", .object [("udp", .bool true)]),
        ("tag", .string "socks-in")]]) ∧
      doc.get "outbounds" = some (.array [.object [
        ("protocol", .string "freedom"),
        ("settings", .object [])]]) := by
  refine ⟨configDoc, env.WriteFile path configText 0o644, encode_config, ?_, ?_, ?_, ?_⟩
  · rw [generateXrayConfig_eq, render_configDoc]
  · rfl
  · rfl
  · rfl

/-- C2 (the code's behaviour): for every output path, the object
`generateXrayConfig` writes has the five top-level keys `log`, `inbounds`,
`outbounds`, `dns`, `routing`; the `omitempty` option does not drop the
struct-typed fields, which are written as `{"servers": null}` and
`{"domainStrategy": "", "rules": null}`. -/
theorem generateXrayConfig_keys (env : Env) (path : String) :
    ∃ doc res,
      json.encode generateXrayConfig.config.toValue = .ok doc ∧
      (generateXrayConfig path env).trace
        = [.writeFile path (json.render "" "  " 0 doc) 0o644 res] ∧
      doc.keys = ["log", "inbounds", "outbounds", "dns", "routing"] ∧
      doc.get "dns" = some (.object [("servers", .null)]) ∧
      doc.get "routing"
        = some (.object [("domainStrategy", .string ""), ("rules", .null)]) := by
  refine ⟨configDoc, env.WriteFile path configText 0o644, encode_config, ?_, ?_, ?_, ?_⟩
  · rw [generateXrayConfig_eq, render_configDoc]
  · rfl
  · rfl
  · rfl

/-- C3: the bytes `generateXrayConfig` hands to the write are the same for any
two paths and any two invocations (environments), namely `configText`; and
when two invocations on the same path both succeed, the files after the
second are the files after the first. -/
theorem generateXrayConfig_deterministic (e₁ e₂ : Env) (p q : String) :
    (generateXrayConfig p e₁).trace.filterMap Event.writeData = [configText] ∧
    (generateXrayConfig q e₂).trace.filterMap Event.writeData = [configText] ∧
    (∀ fs : Files,
      (generateXrayConfig p e₁).result = .ok none →
      (generateXrayConfig p e₂).result = .ok none →
      fs.after ((generateXrayConfig p e₁).trace ++ (generateXrayConfig p e₂).trace)
        = fs.after (generateXrayConfig p e₁).trace) := by
  refine ⟨?_, ?_, ?_⟩
  · simp [generateXrayConfig_eq, Event.writeData]
  · simp [generateXrayConfig_eq, Event.writeData]
  · intro fs h₁ h₂
    simp only [generateXrayConfig_eq, Except.ok.injEq] at h₁ h₂ ⊢
    rw [h₁, h₂]
    funext x
    simp only [Files.after, List.foldl, List.cons_append, List.nil_append, Files.step]
    split <;> rfl

/-- C3, at an instance: two successful invocations on `config.json` leave the
file holding `configText`, as one does. -/
theorem generateXrayConfig_deterministic_witness :
    (generateXrayConfig "config.json" Env.healthy).result = .ok none ∧
    Files.after Files.empty
        ((generateXrayConfig "config.json" Env.healthy).trace
          ++ (generateXrayConfig "config.json" Env.healthy).trace)
      = Files.after Files.empty (generateXrayConfig "config.json" Env.healthy).trace :=
  ⟨by rw [generateXrayConfig_eq]; rfl,
   (generateXrayConfig_deterministic Env.healthy Env.healthy "config.json" "config.json").2.2
     Files.empty (by rw [generateXrayConfig_eq]; rfl) (by rw [generateXrayConfig_eq]; rfl)⟩

/-- C4: in every run in which the stat of `<cwd>/assets/xray.exe` reports
not-exist, `main` ends with exit status 1 after a fatal diagnostic that is
that path, and its trace holds the working-directory query and the stat only:
no file write and no child launch. -/
theorem main_missing_binary (env : Env) (d : String) (e : GoError)
    (hwd : env.Getwd = .ok d)
    (hst : env.Stat (xrayBinaryOf env d) = .error e)
    (hne : os.IsNotExist (some e) = true) :
    (main env).trace
      = [.getwd (.ok d), .stat (xrayBinaryOf env d) (.error e), .fatal (xrayBinaryOf env d)] ∧
    exitStatus (main env) = 1 ∧
    (∀ ev ∈ (main env).trace, ev.isWrite = false ∧ ev.isLaunch = false) := by
  have hm := main_missing env d hwd (by rw [hst]; exact hne)
  rw [hst] at hm
  rw [hm]
  refine ⟨rfl, rfl, ?_⟩
  intro ev hev
  simp only [List.mem_cons, List.mem_singleton, List.not_mem_nil, or_false] at hev
  rcases hev with h | h | h <;> subst h <;> exact ⟨rfl, rfl⟩

/-- C4, at an instance: with the binary absent in `/srv/farvahar` the run is
the query, the stat and the fatal diagnostic `/srv/farvahar/assets/xray.exe`. -/
theorem main_missing_binary_witness :
    Env.noBinary.Getwd = .ok "/srv/farvahar" ∧
    (main Env.noBinary).trace
      = [.getwd (.ok "/srv/farvahar"),
         .stat "/srv/farvahar/assets/xray.exe"
           (.error (.base "CreateFile assets/xray.exe: file not found" true)),
         .fatal "/srv/farvahar/assets/xray.exe"] ∧
    exitStatus (main Env.noBinary) = 1 :=
  ⟨rfl,
   (main_missing_binary Env.noBinary "/srv/farvahar"
      (.base "CreateFile assets/xray.exe: file not found" true) rfl rfl rfl).1,
   (main_missing_binary Env.noBinary "/srv/farvahar"
      (.base "CreateFile assets/xray.exe: file not found" true) rfl rfl rfl).2.1⟩

/-- C5: `runXray` returns nil exactly when the child started and exited with
status 0; for every other outcome of the child it returns a non-nil error
whose `Unwrap` is the error `Run` reported and whose message is that error's
message. -/
theorem runXray_error (env : Env) (xrayPath configPath : String) :
    ((runXray xrayPath configPath env).result = .ok none
      ↔ env.Child (launchCmd xrayPath configPath) = .exited 0) ∧
    (env.Child (launchCmd xrayPath configPath) ≠ .exited 0 →
      ∃ e w, (env.Child (launchCmd xrayPath configPath)).err = some e ∧
        (runXray xrayPath configPath env).result = .ok (some w) ∧
        errors.Unwrap w = some e ∧ w.Error = e.Error) := by
  rw [runXray_eq]
  refine ⟨?_, ?_⟩
  · rw [← childErr_none_iff]
    cases (env.Child (launchCmd xrayPath configPath)).err <;> simp
  · intro hne
    cases hc : (env.Child (launchCmd xrayPath configPath)).err with
    | none => exact absurd ((childErr_none_iff _).1 hc) hne
    | some e =>
      exact ⟨e, fmt.Errorf "%w" e, rfl, rfl, rfl, by
        simp [fmt.Errorf, GoError.Error, sprintf_w, Arg.text]⟩

/-- C5, at an instance: for a child that exits with status 2, `runXray`
returns an error that wraps the error of `Run` and carries its message. -/
theorem runXray_error_witness :
    Env.childFails.Child (launchCmd "assets/xray.exe" "config.json") ≠ .exited 0 ∧
    ∃ e w, (Env.childFails.Child (launchCmd "assets/xray.exe" "config.json")).err = some e ∧
      (runXray "assets/xray.exe" "config.json" Env.childFails).result = .ok (some w) ∧
      errors.Unwrap w = some e ∧ w.Error = e.Error :=
  ⟨by decide,
   (runXray_error Env.childFails "assets/xray.exe" "config.json").2 (by decide)⟩

/-- C6: whenever `main` launches a child process, the working directory `d`
was resolved, the program launched is the join of `d`, `assets`, `xray.exe`,
its argument vector after the program itself is `-config` followed by the
join of `d` and `config.json`, and that path is the one the configuration was
written to. -/
theorem main_launch_command (env : Env) (cmd : Cmd) (res : Option GoError)
    (h : Event.run cmd res ∈ (main env).trace) :
    ∃ d, env.Getwd = .ok d ∧
      cmd.Path = env.Join [d, "assets", "xray.exe"] ∧
      cmd.Args = [cmd.Path, "-config", env.Join [d, "config.json"]] ∧
      ∃ data perm,
        Event.writeFile (env.Join [d, "config.json"]) data perm none ∈ (main env).trace := by
  cases hwd : env.Getwd with
  | error e =>
    rw [main_getwd_error env e hwd] at h
    simp at h
  | ok d =>
    cases hst : os.IsNotExist (errOf (env.Stat (xrayBinaryOf env d))) with
    | true =>
      rw [main_missing env d hwd hst] at h
      simp at h
    | false =>
      cases hw : env.WriteFile (configPathOf env d) configText 0o644 with
      | some e =>
        rw [main_write_error env d e hwd hst hw] at h
        simp at h
      | none =>
        cases hc : (env.Child (launchCmd (xrayBinaryOf env d) (configPathOf env d))).err with
        | some e =>
          rw [main_child_error env d e hwd hst hw hc] at h ⊢
          simp at h
          refine ⟨d, rfl, ?_, ?_, configText, 0o644, ?_⟩
          · rw [h.1]; rfl
          · rw [h.1]; rfl
          · simp [configPathOf]
        | none =>
          rw [main_clean env d hwd hst hw hc] at h ⊢
          simp at h
          refine ⟨d, rfl, ?_, ?_, configText, 0o644, ?_⟩
          · rw [h.1]; rfl
          · rw [h.1]; rfl
          · simp [configPathOf]

/-- C6, at an instance: in `/srv/farvahar` the launch is
`/srv/farvahar/assets/xray.exe -config /srv/farvahar/config.json`. -/
theorem main_launch_command_witness :
    Event.run (launchCmd "/srv/farvahar/assets/xray.exe" "/srv/farvahar/config.json") none
      ∈ (main Env.healthy).trace ∧
    ∃ d, Env.healthy.Getwd = .ok d ∧
      (launchCmd "/srv/farvahar/assets/xray.exe" "/srv/farvahar/config.json").Path
        = Env.healthy.Join [d, "assets", "xray.exe"] ∧
      (launchCmd "/srv/farvahar/assets/xray.exe" "/srv/farvahar/config.json").Args
        = [(launchCmd "/srv/farvahar/assets/xray.exe" "/srv/farvahar/config.json").Path,
           "-config", Env.healthy.Join [d, "config.json"]] ∧
      ∃ data perm,
        Event.writeFile (Env.healthy.Join [d, "config.json"]) data perm none
          ∈ (main Env.healthy).trace :=
  have hrun : Event.run (launchCmd "/srv/farvahar/assets/xray.exe" "/srv/farvahar/config.json")
      none ∈ (main Env.healthy).trace := by
    rw [main_clean Env.healthy "/srv/farvahar" rfl rfl rfl rfl]
    exact List.Mem.tail _ (List.Mem.tail _ (List.Mem.tail _ (List.Mem.head _)))
  ⟨hrun, main_launch_command Env.healthy _ none hrun⟩

/-- C7 as stated fails: the mode passed for `config.json` does not have the
owner-write, other-read and other-execute bits set with the group-write and
other-write bits clear, since its other-execute bit is clear. -/
theorem generateXrayConfig_mode_refuted :
    ¬ (∀ perm ∈ (generateXrayConfig "config.json" Env.healthy).trace.filterMap Event.writePerm,
        perm.testBit 7 = true ∧ perm.testBit 4 = false ∧ perm.testBit 1 = false ∧
        perm.testBit 2 = true ∧ perm.testBit 0 = true) := by
  intro h
  have h0 := (h 0o644 (by simp [generateXrayConfig_eq, Event.writePerm])).2.2.2.2
  revert h0
  decide

/-- C7, amended: the one mode `generateXrayConfig` passes is `0644`: the
owner-write bit is set, the group-write and other-write bits are clear, the
other-read bit is set, and the other-execute bit is clear. -/
theorem generateXrayConfig_mode (env : Env) (path : String) :
    (generateXrayConfig path env).trace.filterMap Event.writePerm = [0o644] ∧
    ∀ perm ∈ (generateXrayConfig path env).trace.filterMap Event.writePerm,
      perm.testBit 7 = true ∧ perm.testBit 4 = false ∧ perm.testBit 1 = false ∧
      perm.testBit 2 = true ∧ perm.testBit 0 = false := by
  have hp : (generateXrayConfig path env).trace.filterMap Event.writePerm = [0o644] := by
    simp [generateXrayConfig_eq, Event.writePerm]
  refine ⟨hp, ?_⟩
  intro perm hperm
  rw [hp, List.mem_singleton] at hperm
  subst hperm
  decide

/-- C8: `main` ends with exit status 0 exactly when the working directory was
resolved, the stat did not report not-exist, `generateXrayConfig` returned nil
and `runXray` returned nil; a failure of the working directory, a missing
binary, a failed write and a failed child each end the run with status 1 right
after the failing step, with no later step in the trace. -/
theorem main_exit (env : Env) :
    (exitStatus (main env) = 0 ↔
      ∃ d, env.Getwd = .ok d ∧
        os.IsNotExist (errOf (env.Stat (xrayBinaryOf env d))) = false ∧
        (generateXrayConfig (configPathOf env d) env).result = .ok none ∧
        (runXray (xrayBinaryOf env d) (configPathOf env d) env).result = .ok none) ∧
    (∀ e, env.Getwd = .error e →
      main env = ⟨[.getwd (.error e), .fatal e.Error], .error 1⟩) ∧
    (∀ d, env.Getwd = .ok d →
      os.IsNotExist (errOf (env.Stat (xrayBinaryOf env d))) = true →
      main env =
        ⟨[.getwd (.ok d), .stat (xrayBinaryOf env d) (env.Stat (xrayBinaryOf env d)),
          .fatal (xrayBinaryOf env d)], .error 1⟩) ∧
    (∀ d e, env.Getwd = .ok d →
      os.IsNotExist (errOf (env.Stat (xrayBinaryOf env d))) = false →
      (generateXrayConfig (configPathOf env d) env).result = .ok (some e) →
      main env =
        ⟨[.getwd (.ok d), .stat (xrayBinaryOf env d) (env.Stat (xrayBinaryOf env d)),
          .writeFile (configPathOf env d) configText 0o644 (some e),
          .fatal e.Error], .error 1⟩) ∧
    (∀ d e, env.Getwd = .ok d →
      os.IsNotExist (errOf (env.Stat (xrayBinaryOf env d))) = false →
      (generateXrayConfig (configPathOf env d) env).result = .ok none →
      (runXray (xrayBinaryOf env d) (configPathOf env d) env).result = .ok (some e) →
      ∃ cause, main env =
        ⟨[.getwd (.ok d), .stat (xrayBinaryOf env d) (env.Stat (xrayBinaryOf env d)),
          .writeFile (configPathOf env d) configText 0o644 none,
          .run (launchCmd (xrayBinaryOf env d) (configPathOf env d)) (some cause),
          .fatal ("Xray error: " ++ e.Error)], .error 1⟩) := by
  refine ⟨?_, ?_, ?_, ?_, ?_⟩
  · constructor
    · intro h0
      cases hwd : env.Getwd with
      | error e => rw [main_getwd_error env e hwd] at h0; simp [exitStatus] at h0
      | ok d =>
        cases hst : os.IsNotExist (errOf (env.Stat (xrayBinaryOf env d))) with
        | true => rw [main_missing env d hwd hst] at h0; simp [exitStatus] at h0
        | false =>
          cases hw : env.WriteFile (configPathOf env d) configText 0o644 with
          | some e => rw [main_write_error env d e hwd hst hw] at h0; simp [exitStatus] at h0
          | none =>
            cases hc : (env.Child (launchCmd (xrayBinaryOf env d) (configPathOf env d))).err with
            | some e =>
              rw [main_child_error env d e hwd hst hw hc] at h0; simp [exitStatus] at h0
            | none =>
              refine ⟨d, rfl, hst, ?_, ?_⟩
              · rw [generateXrayConfig_eq, hw]
              · rw [runXray_eq, hc]; rfl
    · rintro ⟨d, hwd, hst, hg, hr⟩
      rw [generateXrayConfig_eq] at hg
      rw [runXray_eq] at hr
      have hw : env.WriteFile (configPathOf env d) configText 0o644 = none := by
        simpa using hg
      have hc : (env.Child (launchCmd (xrayBinaryOf env d) (configPathOf env d))).err = none := by
        simpa using hr
      rw [main_clean env d hwd hst hw hc]
      rfl
  · intro e hwd
    exact main_getwd_error env e hwd
  · intro d hwd hst
    exact main_missing env d hwd hst
  · intro d e hwd hst hg
    rw [generateXrayConfig_eq] at hg
    have hw : env.WriteFile (configPathOf env d) configText 0o644 = some e := by
      simpa using hg
    exact main_write_error env d e hwd hst hw
  · intro d e hwd hst hg hr
    rw [generateXrayConfig_eq] at hg
    rw [runXray_eq] at hr
    have hw : env.WriteFile (configPathOf env d) configText 0o644 = none := by
      simpa using hg
    cases hc : (env.Child (launchCmd (xrayBinaryOf env d) (configPathOf env d))).err with
    | none => rw [hc] at hr; simp at hr
    | some cause =>
      rw [hc] at hr
      have he : e = fmt.Errorf "%w" cause := by simpa using hr.symm
      refine ⟨cause, ?_⟩
      rw [main_child_error env d cause hwd hst hw hc, he]
      simp [fmt.Errorf, GoError.Error, sprintf_w, Arg.text]

/-- C8, at an instance: the healthy run ends with status 0. -/
theorem main_exit_witness : exitStatus (main Env.healthy) = 0 :=
  (main_exit Env.healthy).1.2
    ⟨"/srv/farvahar", rfl, rfl, by rw [generateXrayConfig_eq]; rfl, by rw [runXray_eq]; rfl⟩

/-- C9: wherever a launch stands in the trace of `main`, `generateXrayConfig`
has returned nil and its successful write of the configuration path stands
before the launch, no other launch stands before or after it, and no file
write stands after it. -/
theorem main_launch_order (env : Env) (pre post : List Event) (ev : Event)
    (h : (main env).trace = pre ++ ev :: post) (hl : ev.isLaunch = true) :
    (∃ d data perm, env.Getwd = .ok d ∧
      (generateXrayConfig (configPathOf env d) env).result = .ok none ∧
      Event.writeFile (configPathOf env d) data perm none ∈ pre) ∧
    (∀ x ∈ pre, x.isLaunch = false) ∧
    (∀ x ∈ post, x.isLaunch = false ∧ x.isWrite = false) := by
  have hmem : ev ∈ (main env).trace := by rw [h]; simp
  cases hwd : env.Getwd with
  | error e =>
    rw [main_getwd_error env e hwd] at hmem
    simp only [List.mem_cons, List.mem_singleton, List.not_mem_nil, or_false] at hmem
    rcases hmem with hx | hx <;> subst hx <;> simp [Event.isLaunch] at hl
  | ok d =>
    cases hst : os.IsNotExist (errOf (env.Stat (xrayBinaryOf env d))) with
    | true =>
      rw [main_missing env d hwd hst] at hmem
      simp only [List.mem_cons, List.mem_singleton, List.not_mem_nil, or_false] at hmem
      rcases hmem with hx | hx | hx <;> subst hx <;> simp [Event.isLaunch] at hl
    | false =>
      cases hw : env.WriteFile (configPathOf env d) configText 0o644 with
      | some e =>
        rw [main_write_error env d e hwd hst hw] at hmem
        simp only [List.mem_cons, List.mem_singleton, List.not_mem_nil, or_false] at hmem
        rcases hmem with hx | hx | hx | hx <;> subst hx <;> simp [Event.isLaunch] at hl
      | none =>
        have hg : (generateXrayConfig (configPathOf env d) env).result = .ok none := by
          rw [generateXrayConfig_eq, hw]
        cases hc : (env.Child (launchCmd (xrayBinaryOf env d) (configPathOf env d))).err with
        | some e =>
          rw [main_child_error env d e hwd hst hw hc] at h
          obtain ⟨hpre, -, hpost⟩ := launch_split _ _ _ _ ev _ pre post h hl rfl rfl rfl
            (by intro x hx; rw [List.mem_singleton] at hx; subst hx; rfl)
          subst hpre hpost
          refine ⟨⟨d, configText, 0o644, rfl, hg, by simp⟩, ?_, ?_⟩
          · intro x hx
            simp only [List.mem_cons, List.mem_singleton, List.not_mem_nil, or_false] at hx
            rcases hx with hx | hx | hx <;> subst hx <;> rfl
          · intro x hx
            rw [List.mem_singleton] at hx
            subst hx
            exact ⟨rfl, rfl⟩
        | none =>
          rw [main_clean env d hwd hst hw hc] at h
          obtain ⟨hpre, -, hpost⟩ := launch_split _ _ _ _ ev _ pre post h hl rfl rfl rfl
            (by intro x hx; simp at hx)
          subst hpre hpost
          refine ⟨⟨d, configText, 0o644, rfl, hg, by simp⟩, ?_, ?_⟩
          · intro x hx
            simp only [List.mem_cons, List.mem_singleton, List.not_mem_nil, or_false] at hx
            rcases hx with hx | hx | hx <;> subst hx <;> rfl
          · intro x hx
            simp at hx

/-- C9, at an instance: in the run whose child exits with status 2, the launch
is the fourth call, after the successful write, and only the fatal diagnostic
follows it. -/
theorem main_launch_order_witness :
    (main Env.childFails).trace
      = [.getwd (.ok "/srv/farvahar"),
         .stat "/srv/farvahar/assets/xray.exe" (.ok { isDir := false, mode := 0o755 }),
         .writeFile "/srv/farvahar/config.json" configText 0o644 none]
        ++ Event.run (launchCmd "/srv/farvahar/assets/xray.exe" "/srv/farvahar/config.json")
            (some (.base "exit status 2" false))
          :: [.fatal "Xray error: exit status 2"] ∧
    (∀ x ∈ [Event.fatal "Xray error: exit status 2"], x.isLaunch = false ∧ x.isWrite = false) :=
  have htrace : (main Env.childFails).trace
      = [.getwd (.ok "/srv/farvahar"),
         .stat "/srv/farvahar/assets/xray.exe" (.ok { isDir := false, mode := 0o755 }),
         .writeFile "/srv/farvahar/config.json" configText 0o644 none]
        ++ Event.run (launchCmd "/srv/farvahar/assets/xray.exe" "/srv/farvahar/config.json")
            (some (.base "exit status 2" false))
          :: [.fatal "Xray error: exit status 2"] := by
    rw [main_child_error Env.childFails "/srv/farvahar" (.base "exit status 2" false)
      rfl rfl rfl rfl]
    rfl
  ⟨htrace, (main_launch_order Env.childFails _ _ _ htrace rfl).2.2⟩

/-- C10 as stated fails: when the stat is refused with an error other than
not-exist and the write of the configuration fails, `main` passes the check
but never attempts a launch. -/
theorem main_check_refuted :
    Env.denied.Getwd = .ok "/srv/farvahar" ∧
    os.IsNotExist (errOf (Env.denied.Stat (xrayBinaryOf Env.denied "/srv/farvahar"))) = false ∧
    ¬ (∃ ev ∈ (main Env.denied).trace, ev.isLaunch = true) := by
  refine ⟨rfl, rfl, ?_⟩
  rw [main_write_error Env.denied "/srv/farvahar"
    (.base "open config.json: permission denied" false) rfl rfl rfl]
  simp [Event.isLaunch]

/-- C10, amended: in every run in which the stat of `<cwd>/assets/xray.exe`
succeeds (on a file or on a directory) or fails with an error other than
not-exist, `main` does not end at the check: the write of the configuration
file follows the stat, and when that write succeeds the launch follows it. -/
theorem main_check_passes (env : Env) (d : String) (hwd : env.Getwd = .ok d)
    (hst : (∃ info, env.Stat (xrayBinaryOf env d) = .ok info) ∨
      (∃ e, env.Stat (xrayBinaryOf env d) = .error e ∧ os.IsNotExist (some e) = false)) :
    ∃ rest,
      (main env).trace
        = [.getwd (.ok d), .stat (xrayBinaryOf env d) (env.Stat (xrayBinaryOf env d)),
           .writeFile (configPathOf env d) configText 0o644
             (env.WriteFile (configPathOf env d) configText 0o644)] ++ rest ∧
      (env.WriteFile (configPathOf env d) configText 0o644 = none →
        ∃ res tail,
          rest = .run (launchCmd (xrayBinaryOf env d) (configPathOf env d)) res :: tail) := by
  have hne : os.IsNotExist (errOf (env.Stat (xrayBinaryOf env d))) = false := by
    rcases hst with ⟨info, hi⟩ | ⟨e, he, hn⟩
    · rw [hi]; rfl
    · rw [he]; exact hn
  cases hw : env.WriteFile (configPathOf env d) configText 0o644 with
  | some e =>
    rw [main_write_error env d e hwd hne hw]
    exact ⟨[.fatal e.Error], rfl, by intro h; cases h⟩
  | none =>
    cases hc : (env.Child (launchCmd (xrayBinaryOf env d) (configPathOf env d))).err with
    | some e =>
      rw [main_child_error env d e hwd hne hw hc]
      exact ⟨_, rfl, fun _ => ⟨_, _, rfl⟩⟩
    | none =>
      rw [main_clean env d hwd hne hw hc]
      exact ⟨_, rfl, fun _ => ⟨_, _, rfl⟩⟩

/-- C10, amended, at an instance: with `assets/xray.exe` a directory the run
goes past the check, writes the configuration and attempts the launch. -/
theorem main_check_passes_witness :
    Env.binaryIsDir.Getwd = .ok "/srv/farvahar" ∧
    Env.binaryIsDir.Stat (xrayBinaryOf Env.binaryIsDir "/srv/farvahar")
      = .ok { isDir := true, mode := 0o755 } ∧
    ∃ rest,
      (main Env.binaryIsDir).trace
        = [.getwd (.ok "/srv/farvahar"),
           .stat (xrayBinaryOf Env.binaryIsDir "/srv/farvahar")
             (Env.binaryIsDir.Stat (xrayBinaryOf Env.binaryIsDir "/srv/farvahar")),
           .writeFile (configPathOf Env.binaryIsDir "/srv/farvahar") configText 0o644
             (Env.binaryIsDir.WriteFile (configPathOf Env.binaryIsDir "/srv/farvahar")
               configText 0o644)] ++ rest ∧
      (Env.binaryIsDir.WriteFile (configPathOf Env.binaryIsDir "/srv/farvahar") configText 0o644
          = none →
        ∃ res tail,
          rest = .run (launchCmd (xrayBinaryOf Env.binaryIsDir "/srv/farvahar")
            (configPathOf Env.binaryIsDir "/srv/farvahar")) res :: tail) :=
  ⟨rfl, rfl, main_check_passes Env.binaryIsDir "/srv/farvahar" rfl (Or.inl ⟨_, rfl⟩)⟩

end Farvahar
